import Mathlib

/-!
Verification of the `include` tag of the liquid templating engine
(`src/crates/lib/src/stdlib/tags/include_tag.rs`): the argument parser
(`IncludeTag::parse`) and the renderer (`Include::render_to`).

The file embeds the tag's own code directly.  The surrounding engine
(`liquid_core`: values, expressions, the runtime scope stack, the error
type and the store of compiled named templates, called "partials" in the
source) lives in this repository outside the provided sources, so those
parts are modelled from the specification; each such definition carries a
doc comment starting `Modelled from the spec:`.
-/

set_option autoImplicit false

namespace LiquidInclude

/-- Modelled from the spec: scalar values of the engine's value model
(string/number literals mentioned in the grammar).  Missing source:
`liquid_core` value model. -/
inductive Scalar where
  | str (s : String)
  | int (n : Int)
  | bool (b : Bool)
  deriving DecidableEq, Repr

/-- Modelled from the spec: the engine's value model — scalars, arrays,
objects (mappings) and nil; the spec's value capability exposes "is this a
scalar?", "render to string" and a source form.  Missing source:
`liquid_core::model::Value`. -/
inductive Value where
  | scalar (s : Scalar)
  | arr (xs : List Value)
  | obj (fields : List (String × Value))
  | nil

/-- Modelled from the spec: the source-code form of a scalar (strings
quoted, numbers printed). -/
def Scalar.source : Scalar → String
  | .str s => "\"" ++ s ++ "\""
  | .int n => toString n
  | .bool b => toString b

/-- Modelled from the spec: the rendered (display) form of a scalar. -/
def Scalar.render : Scalar → String
  | .str s => s
  | .int n => toString n
  | .bool b => toString b

mutual

/-- Modelled from the spec: the source-code form of a value, used by the
renderer as error context for a non-scalar partial name
(`value.source()` in the source). -/
def Value.source : Value → String
  | .scalar s => s.source
  | .arr xs => "[" ++ Value.sourceList xs ++ "]"
  | .obj fs => "\x7b" ++ Value.sourceFields fs ++ "\x7d"
  | .nil => "nil"

/-- Modelled from the spec: comma-separated source forms of array
elements. -/
def Value.sourceList : List Value → String
  | [] => ""
  | [x] => x.source
  | x :: xs => x.source ++ ", " ++ Value.sourceList xs

/-- Modelled from the spec: comma-separated source forms of object
fields. -/
def Value.sourceFields : List (String × Value) → String
  | [] => ""
  | [(k, v)] => k ++ ": " ++ v.source
  | (k, v) :: fs => k ++ ": " ++ v.source ++ ", " ++ Value.sourceFields fs

end

mutual

/-- Modelled from the spec: "render to string" of a value
(`value.to_kstr()` in the source); composites concatenate their parts,
nil renders empty. -/
def Value.to_kstr : Value → String
  | .scalar s => s.render
  | .arr xs => Value.renderList xs
  | .obj fs => Value.renderFields fs
  | .nil => ""

/-- Modelled from the spec: concatenated rendered forms of array
elements. -/
def Value.renderList : List Value → String
  | [] => ""
  | x :: xs => x.to_kstr ++ Value.renderList xs

/-- Modelled from the spec: concatenated rendered forms of object field
values. -/
def Value.renderFields : List (String × Value) → String
  | [] => ""
  | (_, v) :: fs => v.to_kstr ++ Value.renderFields fs

end

/-- Modelled from the spec: the scalar test used by the renderer
(`value.is_scalar()`); only scalars pass, arrays, objects and nil do
not. -/
def Value.is_scalar : Value → Bool
  | .scalar _ => true
  | _ => false

/-- Modelled from the spec: one annotation frame attached to an error when
it crosses a component boundary — either a trace message (`trace_with`) or
a context key/value pair (`context`, `context_key_with`/`value_with`).
Missing source: `liquid_core::error`. -/
inductive Note where
  | trace (msg : String)
  | context (key : String) (val : String)
  deriving DecidableEq, Repr

/-- Modelled from the spec: a structured error value carrying an ordered
list of context frames, appended (never overwritten) at each propagation
point.  Missing source: `liquid_core::error::Error`. -/
structure Error where
  msg : String
  notes : List Note
  deriving DecidableEq, Repr

/-- Modelled from the spec: `Error::with_msg` — a fresh error with no
annotations. -/
def Error.withMsg (m : String) : Error := ⟨m, []⟩

/-- Modelled from the spec: `.context(key, value)` — append a context
key/value annotation, never replacing the message. -/
def Error.addContext (e : Error) (k v : String) : Error :=
  { e with notes := e.notes ++ [.context k v] }

/-- Modelled from the spec: `.trace_with(msg)` on a failed result —
append a trace annotation, never replacing the message. -/
def Error.addTrace (e : Error) (m : String) : Error :=
  { e with notes := e.notes ++ [.trace m] }

/-- Modelled from the spec: an unevaluated expression — a literal or a
variable reference, evaluated at render time against a scope.  Missing
source: `liquid_core::Expression`. -/
inductive Expression where
  | literal (v : Value)
  | var (name : String)

/-- Modelled from the spec: the textual (display) form of an expression,
used in the include tag's trace annotations (`format!("... {} ...",
self.partial)`). -/
def Expression.text : Expression → String
  | .literal v => v.source
  | .var n => n

/-- Modelled from the spec: one scope frame — a mapping from variable
names to values, insertion-ordered. -/
abbrev Frame := List (String × Value)

/-- Modelled from the spec: lookup in a single frame (first matching key
wins; keys are unique by construction). -/
def frameGet : Frame → String → Option Value
  | [], _ => none
  | (k, v) :: rest, n => if k = n then some v else frameGet rest n

/-- Modelled from the spec: lookup in a scope chain — the innermost frame
is consulted first, and lookups fall through to outer scopes when a name
is absent locally. -/
def stackGet : List Frame → String → Option Value
  | [], _ => none
  | f :: rest, n =>
    match frameGet f n with
    | some v => some v
    | none => stackGet rest n

/-- Modelled from the spec: insertion into an insertion-ordered mapping
(`Object::insert`, `scope.stack_mut().set`): a key already present keeps
its position and takes the new value (last write wins); a new key is
appended. -/
def assocSet : List (String × Value) → String → Value → List (String × Value)
  | [], k, v => [(k, v)]
  | (k2, v2) :: rest, k, v =>
    if k2 = k then (k, v) :: rest else (k2, v2) :: assocSet rest k v

/-- Modelled from the spec: set a variable by name in the innermost scope
frame (`scope.stack_mut().set`). -/
def stackSet : List Frame → String → Value → List Frame
  | [], k, v => [[(k, v)]]
  | f :: rest, k, v => assocSet f k v :: rest

/-- Modelled from the spec: evaluate an expression against a scope chain,
returning a value or an evaluation error; a variable reference that
resolves nowhere in the chain is an evaluation error.  Missing source:
`Expression::evaluate`. -/
def Expression.evaluate (e : Expression) (stack : List Frame) : Except Error Value :=
  match e with
  | .literal v => .ok v
  | .var n =>
    match stackGet stack n with
    | some v => .ok v
    | none => .error ((Error.withMsg "Unknown variable").addContext "requested variable" n)

/-- Modelled from the spec: fallible evaluation returning no value when
the expression cannot be evaluated (`Expression::try_evaluate`). -/
def Expression.try_evaluate (e : Expression) (stack : List Frame) : Option Value :=
  match e.evaluate stack with
  | .ok v => some v
  | .error _ => none

/-- Modelled from the spec: the renderable form of a stored named
template ("partial"): given the scope chain it renders with, it writes
some output and may additionally fail. -/
abbrev TemplateFn := List Frame → String × Option Error

/-- Modelled from the spec: the render-time runtime seen by the tag — the
store of named templates (the partial source) and the current scope
chain, innermost frame first. -/
structure Runtime where
  store : List (String × TemplateFn)
  stack : List Frame

/-- Modelled from the spec: the store lookup's own not-found error, which
the include tag wraps ("Not-found is a distinct failure ... wrapping the
underlying source's error").  Missing source: the partial store's `get`. -/
def storeMissErr (name : String) : Error :=
  (Error.withMsg "Partial does not exist").addContext "requested" name

/-- Modelled from the spec: query the store of named templates by string
key (`scope.partials().get(&name)`). -/
def lookupStore : List (String × TemplateFn) → String → Except Error TemplateFn
  | [], name => .error (storeMissErr name)
  | (k, t) :: rest, name => if k = name then .ok t else lookupStore rest name

/-- The parsed include instruction (`struct Include` in the source):
`tmplExpr` is the source's `partial` field (the unevaluated partial-name
expression), `vars` its `vars` field (the ordered bindings). -/
structure Include where
  tmplExpr : Expression
  vars : List (String × Expression)

/-- The literal include-tag invocation text used in trace annotations:
`format!("\x7b% include \x7b} %}", self.partial)` in the source. -/
def tagText (i : Include) : String :=
  "\x7b% include " ++ i.tmplExpr.text ++ " %\x7d"

/-- The loop of `Include::render_to` that materializes the bindings into
the helper object: each binding's expression is `try_evaluate`d against
the scope, a failure aborting with the constant-message error
`failed to evaluate value`, and successes inserted in order into the
object (`helper_vars.insert`). -/
def buildHelper : List (String × Expression) → List Frame →
    List (String × Value) → Except Error (List (String × Value))
  | [], _, acc => .ok acc
  | (id, e) :: rest, scope, acc =>
    match e.try_evaluate scope with
    | none => .error (Error.withMsg "failed to evaluate value")
    | some v => buildHelper rest scope (assocSet acc id v)

/-- The binding step of `Include::render_to`: when `vars` is non-empty,
build the helper object against the new scope and install it under the
reserved key `include` in the innermost frame; when `vars` is empty the
scope is left untouched. -/
def includeScope (vars : List (String × Expression)) (scope : List Frame) :
    Except Error (List Frame) :=
  if vars.isEmpty then .ok scope
  else
    match buildHelper vars scope [] with
    | .error e => .error e
    | .ok helper => .ok (stackSet scope "include" (.obj helper))

/-- `Include::render_to`: evaluate the partial-name expression, reject
non-scalars with the `Can only include strings` error carrying the
value's source form under context key `partial`, open a new (empty,
named) scope frame, install the bindings, look the template up in the
store (wrapping a miss with the tag text as trace), and render it through
the writer, wrapping a render failure with the tag text and the resolved
name.  The result is the text written to the writer together with the
error, if any. -/
def Include.render_to (i : Include) (rt : Runtime) : String × Option Error :=
  match i.tmplExpr.evaluate rt.stack with
  | .error e => ("", some e)
  | .ok value =>
    if value.is_scalar then
      let name := value.to_kstr
      match includeScope i.vars ([] :: rt.stack) with
      | .error e => ("", some e)
      | .ok scope =>
        match lookupStore rt.store name with
        | .error e => ("", some (e.addTrace (tagText i)))
        | .ok t =>
          match t scope with
          | (out, none) => (out, none)
          | (out, some e) =>
            (out, some (((e.addTrace (tagText i)).addContext i.tmplExpr.text name)))
    else
      ("", some ((Error.withMsg "Can only `include` strings").addContext
        "partial" value.source))

/-- Modelled from the spec: one raw tag-argument token following the tag
name — a bare identifier, a string literal, an integer literal, or a
punctuation token such as the colon.  Missing source:
`liquid_core::TagToken`. -/
inductive Token where
  | ident (s : String)
  | strLit (s : String)
  | intLit (n : Int)
  | punct (s : String)
  deriving DecidableEq, Repr

/-- Modelled from the spec: the raw text of a token, compared literally
by `expect_str`. -/
def Token.raw : Token → String
  | .ident s => s
  | .strLit s => "'" ++ s ++ "'"
  | .intLit n => toString n
  | .punct s => s

/-- Modelled from the spec: `TagToken::expect_value` — the token must
parse as a value-producing expression: a variable reference or a
string/number literal; anything else is rejected. -/
def Token.expect_value : Token → Except Error Expression
  | .ident s => .ok (.var s)
  | .strLit s => .ok (.literal (.scalar (.str s)))
  | .intLit n => .ok (.literal (.scalar (.int n)))
  | t => .error (Error.withMsg ("Expected value, found " ++ t.raw))

/-- Modelled from the spec: `TagToken::expect_identifier` — the token
must be a bare identifier. -/
def Token.expect_identifier : Token → Except Error String
  | .ident s => .ok s
  | t => .error (Error.withMsg ("Expected identifier, found " ++ t.raw))

/-- Modelled from the spec: `TagToken::expect_str(":")` with the custom
message used by the parser — the token's raw text must be exactly the
expected string. -/
def Token.expect_str (t : Token) (s : String) : Except Error Unit :=
  if t.raw = s then .ok ()
  else .error (Error.withMsg "expected \":\" to be used for the assignment")

/-- The binding loop of `IncludeTag::parse`: while a token remains, read
a bare identifier, a literal `:` token, and a value expression, in that
order, pushing each pair onto `vars`; any malformed triple fails the
parse. -/
def parseVars : List Token → Except Error (List (String × Expression))
  | [] => .ok []
  | t :: rest =>
    match t.expect_identifier with
    | .error e => .error e
    | .ok id =>
      match rest with
      | [] => .error (Error.withMsg "\":\" expected.")
      | c :: rest2 =>
        match c.expect_str ":" with
        | .error e => .error e
        | .ok _ =>
          match rest2 with
          | [] => .error (Error.withMsg "expected value")
          | v :: rest3 =>
            match v.expect_value with
            | .error e => .error e
            | .ok ex =>
              match parseVars rest3 with
              | .error e => .error e
              | .ok vs => .ok ((id, ex) :: vs)

/-- `IncludeTag::parse`: the first argument token is mandatory
(`expect_next("Identifier or literal expected.")`) and must be a value
expression; the remaining tokens are consumed by the binding loop. -/
def IncludeTag.parse (tokens : List Token) : Except Error Include :=
  match tokens with
  | [] => .error (Error.withMsg "Identifier or literal expected.")
  | t :: rest =>
    match t.expect_value with
    | .error e => .error e
    | .ok pe =>
      match parseVars rest with
      | .error e => .error e
      | .ok vars => .ok ⟨pe, vars⟩

/-- The declarative shape of the binding arguments, written from the
spec's grammar: zero or more `identifier ":" expression` triples, strictly
left to right, bindings collected in encountered order. -/
inductive BindingsShape : List Token → List (String × Expression) → Prop where
  | nil : BindingsShape [] []
  | cons (idTok colonTok valTok : Token) (rest : List Token) (id : String)
      (e : Expression) (bs : List (String × Expression)) :
      idTok.expect_identifier = .ok id →
      colonTok.raw = ":" →
      valTok.expect_value = .ok e →
      BindingsShape rest bs →
      BindingsShape (idTok :: colonTok :: valTok :: rest) ((id, e) :: bs)

/-- A render of an include instruction that fails before the resolved
template's own rendering begins: the name expression failed to evaluate,
or evaluated to a non-scalar, or a binding failed to evaluate, or the
store had no entry for the resolved key. -/
def preRenderFailure (i : Include) (rt : Runtime) : Prop :=
  (∃ e, i.tmplExpr.evaluate rt.stack = .error e) ∨
  (∃ v, i.tmplExpr.evaluate rt.stack = .ok v ∧ v.is_scalar = false) ∨
  (∃ v e, i.tmplExpr.evaluate rt.stack = .ok v ∧ v.is_scalar = true ∧
    includeScope i.vars ([] :: rt.stack) = .error e) ∨
  (∃ v scope e, i.tmplExpr.evaluate rt.stack = .ok v ∧ v.is_scalar = true ∧
    includeScope i.vars ([] :: rt.stack) = .ok scope ∧
    lookupStore rt.store v.to_kstr = .error e)

/-! ### General lemmas about the scope stack and the binding object -/

theorem frameGet_assocSet (l : List (String × Value)) (k n : String) (v : Value) :
    frameGet (assocSet l k v) n = if k = n then some v else frameGet l n := by
  induction l with
  | nil => simp [assocSet, frameGet]
  | cons p rest ih =>
    obtain ⟨k2, v2⟩ := p
    by_cases hk : k2 = k
    · subst hk
      simp only [assocSet, if_pos rfl, frameGet]
      by_cases hn : k2 = n <;> simp [frameGet, hn]
    · simp only [assocSet, if_neg hk, frameGet]
      by_cases hn : k2 = n
      · subst hn
        have hkn : ¬k = k2 := fun h => hk h.symm
        simp [frameGet, hkn]
      · simp [frameGet, hn, ih]

theorem stackGet_emptyFrame (st : List Frame) (n : String) :
    stackGet ([] :: st) n = stackGet st n := by
  simp [stackGet, frameGet]

theorem try_evaluate_emptyFrame (e : Expression) (st : List Frame) :
    e.try_evaluate ([] :: st) = e.try_evaluate st := by
  cases e with
  | literal v => rfl
  | var n =>
    simp [Expression.try_evaluate, Expression.evaluate, stackGet_emptyFrame]

theorem buildHelper_error (vars : List (String × Expression)) (scope : List Frame)
    (acc : List (String × Value)) (e : Error)
    (h : buildHelper vars scope acc = .error e) :
    e = Error.withMsg "failed to evaluate value" := by
  induction vars generalizing acc with
  | nil => simp [buildHelper] at h
  | cons p rest ih =>
    obtain ⟨id, ex⟩ := p
    simp only [buildHelper] at h
    cases hv : ex.try_evaluate scope with
    | none =>
      rw [hv] at h
      exact (Except.error.inj h).symm
    | some v =>
      rw [hv] at h
      exact ih _ h

theorem buildHelper_lookup (vars : List (String × Expression)) (scope : List Frame)
    (acc helper : List (String × Value))
    (h : buildHelper vars scope acc = .ok helper) (k : String) :
    frameGet helper k =
      match vars.reverse.find? (fun p => p.1 = k) with
      | some p => p.2.try_evaluate scope
      | none => frameGet acc k := by
  induction vars generalizing acc with
  | nil =>
    simp only [buildHelper] at h
    cases h
    simp
  | cons p rest ih =>
    obtain ⟨id, ex⟩ := p
    simp only [buildHelper] at h
    cases hv : ex.try_evaluate scope with
    | none => rw [hv] at h; cases h
    | some v =>
      rw [hv] at h
      have ihh := ih _ h
      rw [ihh]
      simp only [List.reverse_cons, List.find?_append]
      cases hf : rest.reverse.find? (fun p => p.1 = k) with
      | some q => simp [hf]
      | none =>
        simp only [hf, Option.none_or]
        by_cases hk : id = k
        · subst hk
          simp [frameGet_assocSet, hv]
        · simp [hk, frameGet_assocSet]

/-- The key list produced by one insertion into an insertion-ordered
mapping: an existing key keeps its position, a new key is appended. -/
def addKey (ks : List String) (k : String) : List String :=
  if k ∈ ks then ks else ks ++ [k]

theorem assocSet_keys (l : List (String × Value)) (k : String) (v : Value) :
    (assocSet l k v).map Prod.fst = addKey (l.map Prod.fst) k := by
  induction l with
  | nil => simp [assocSet, addKey]
  | cons p rest ih =>
    obtain ⟨k2, v2⟩ := p
    by_cases hk : k2 = k
    · subst hk
      simp [assocSet, addKey]
    · have hkn : ¬k = k2 := fun h => hk h.symm
      simp only [assocSet, if_neg hk, List.map_cons, ih, addKey]
      by_cases hm : k ∈ rest.map Prod.fst
      · simp [hm, hkn]
      · simp [hm, hkn]

theorem buildHelper_keys (vars : List (String × Expression)) (scope : List Frame)
    (acc helper : List (String × Value))
    (h : buildHelper vars scope acc = .ok helper) :
    helper.map Prod.fst = (vars.map Prod.fst).foldl addKey (acc.map Prod.fst) := by
  induction vars generalizing acc with
  | nil =>
    simp only [buildHelper] at h
    cases h
    simp
  | cons p rest ih =>
    obtain ⟨id, ex⟩ := p
    simp only [buildHelper] at h
    cases hv : ex.try_evaluate scope with
    | none => rw [hv] at h; cases h
    | some v =>
      rw [hv] at h
      simpa [assocSet_keys] using ih _ h

theorem addKey_foldl_nodup (l : List String) (ks : List String) (hk : ks.Nodup) :
    (l.foldl addKey ks).Nodup := by
  induction l generalizing ks with
  | nil => simpa
  | cons k rest ih =>
    refine ih _ ?_
    by_cases hm : k ∈ ks
    · simpa [addKey, hm]
    · simp only [addKey, if_neg hm]
      exact List.nodup_append.mpr ⟨hk, List.nodup_singleton k, by simpa using hm⟩

theorem lookupStore_error (store : List (String × TemplateFn)) (name : String)
    (e : Error) (h : lookupStore store name = .error e) : e = storeMissErr name := by
  induction store with
  | nil =>
    simp only [lookupStore] at h
    exact (Except.error.inj h).symm
  | cons p rest ih =>
    obtain ⟨k, t⟩ := p
    simp only [lookupStore] at h
    by_cases hk : k = name
    · simp [hk] at h
    · rw [if_neg hk] at h
      exact ih h

/-! ### Path lemmas for `Include.render_to` -/

theorem render_to_evalError (i : Include) (rt : Runtime) (e : Error)
    (hv : i.tmplExpr.evaluate rt.stack = .error e) :
    i.render_to rt = ("", some e) := by
  simp [Include.render_to, hv]

theorem render_to_nonscalar (i : Include) (rt : Runtime) (v : Value)
    (hv : i.tmplExpr.evaluate rt.stack = .ok v) (hs : v.is_scalar = false) :
    i.render_to rt =
      ("", some ((Error.withMsg "Can only `include` strings").addContext
        "partial" v.source)) := by
  simp [Include.render_to, hv, hs]

theorem render_to_bindError (i : Include) (rt : Runtime) (v : Value) (e : Error)
    (hv : i.tmplExpr.evaluate rt.stack = .ok v) (hs : v.is_scalar = true)
    (hb : includeScope i.vars ([] :: rt.stack) = .error e) :
    i.render_to rt = ("", some e) := by
  simp [Include.render_to, hv, hs, hb]

theorem render_to_missing (i : Include) (rt : Runtime) (v : Value)
    (scope : List Frame) (e : Error)
    (hv : i.tmplExpr.evaluate rt.stack = .ok v) (hs : v.is_scalar = true)
    (hb : includeScope i.vars ([] :: rt.stack) = .ok scope)
    (hm : lookupStore rt.store v.to_kstr = .error e) :
    i.render_to rt = ("", some (e.addTrace (tagText i))) := by
  simp [Include.render_to, hv, hs, hb, hm]

theorem render_to_found (i : Include) (rt : Runtime) (v : Value)
    (scope : List Frame) (t : TemplateFn)
    (hv : i.tmplExpr.evaluate rt.stack = .ok v) (hs : v.is_scalar = true)
    (hb : includeScope i.vars ([] :: rt.stack) = .ok scope)
    (ht : lookupStore rt.store v.to_kstr = .ok t) :
    i.render_to rt =
      match t scope with
      | (out, none) => (out, none)
      | (out, some e) =>
        (out, some ((e.addTrace (tagText i)).addContext i.tmplExpr.text v.to_kstr)) := by
  simp [Include.render_to, hv, hs, hb, ht]

theorem includeScope_error (vars : List (String × Expression)) (scope : List Frame)
    (e : Error) (h : includeScope vars scope = .error e) :
    e = Error.withMsg "failed to evaluate value" := by
  by_cases hemp : vars.isEmpty
  · simp [includeScope, hemp] at h
  · simp only [includeScope, hemp, Bool.false_eq_true, if_false] at h
    cases hb : buildHelper vars scope [] with
    | error e2 =>
      rw [hb] at h
      cases h
      exact buildHelper_error _ _ _ _ hb
    | ok helper => rw [hb] at h; cases h

/-! ### Lemmas about the argument parser -/

theorem parseVars_ok_shape (ts : List Token) (bs : List (String × Expression))
    (h : parseVars ts = .ok bs) : BindingsShape ts bs := by
  induction ts using parseVars.induct generalizing bs with
  | case1 =>
    simp only [parseVars] at h
    cases h
    exact .nil
  | case2 => simp [parseVars, *] at h
  | case3 => simp [parseVars, *] at h
  | case4 => simp [parseVars, *] at h
  | case5 => simp [parseVars, *] at h
  | case6 => simp [parseVars, *] at h
  | case7 => simp [parseVars, *] at h
  | case8 t id hid c u hcu v rest3 ex hex vs hvs ih =>
    simp only [parseVars, hid, hcu, hex, hvs] at h
    cases h
    have hraw : c.raw = ":" := by
      by_cases hr : c.raw = ":"
      · exact hr
      · simp [Token.expect_str, hr] at hcu
    exact .cons t c v rest3 id ex vs hid hraw hex (ih vs hvs)

theorem shape_parseVars_ok (ts : List Token) (bs : List (String × Expression))
    (h : BindingsShape ts bs) : parseVars ts = .ok bs := by
  induction h with
  | nil => rfl
  | cons idTok colonTok valTok rest id e bs hid hc hv _ ih =>
    simp [parseVars, hid, Token.expect_str, hc, hv, ih]

/-! ### The claims -/

/-- C1: when the bindings list is non-empty, every binding expression is
evaluated against the newly opened scope — which, being an empty frame on
top of the caller's chain, sees exactly the caller's variables — and the
resulting binding object is installed under the reserved key `include` in
the new scope, shadowing any outer binding of that name, for the duration
of the rendered template's run. -/
theorem bindings_evaluated_in_new_scope (i : Include) (rt : Runtime) (v : Value)
    (helper : List (String × Value)) (t : TemplateFn) (out : String)
    (hne : i.vars.isEmpty = false)
    (hv : i.tmplExpr.evaluate rt.stack = .ok v)
    (hs : v.is_scalar = true)
    (hh : buildHelper i.vars ([] :: rt.stack) [] = .ok helper)
    (ht : lookupStore rt.store v.to_kstr = .ok t)
    (hr : t (stackSet ([] :: rt.stack) "include" (.obj helper)) = (out, none)) :
    i.render_to rt = (out, none) ∧
    stackGet (stackSet ([] :: rt.stack) "include" (.obj helper)) "include"
      = some (.obj helper) ∧
    (∀ e : Expression, e.try_evaluate ([] :: rt.stack) = e.try_evaluate rt.stack) := by
  have hb : includeScope i.vars ([] :: rt.stack)
      = .ok (stackSet ([] :: rt.stack) "include" (.obj helper)) := by
    simp [includeScope, hne, hh]
  have h := render_to_found i rt v _ t hv hs hb ht
  rw [hr] at h
  refine ⟨h, ?_, fun e => try_evaluate_emptyFrame e rt.stack⟩
  simp [stackSet, assocSet, stackGet, frameGet]

theorem bindings_evaluated_in_new_scope_witness :
    Include.render_to ⟨.literal (.scalar (.str "p")), [("a", .var "x")]⟩
        ⟨[("p", fun _ => ("ok", none))],
          [[("x", .scalar (.int 7)), ("include", .nil)]]⟩
      = ("ok", none) ∧
    stackGet (stackSet ([] :: [[("x", Value.scalar (.int 7)), ("include", Value.nil)]])
        "include" (.obj [("a", Value.scalar (.int 7))])) "include"
      = some (.obj [("a", Value.scalar (.int 7))]) :=
  ⟨(bindings_evaluated_in_new_scope
      ⟨.literal (.scalar (.str "p")), [("a", .var "x")]⟩
      ⟨[("p", fun _ => ("ok", none))],
        [[("x", .scalar (.int 7)), ("include", .nil)]]⟩
      (.scalar (.str "p")) [("a", Value.scalar (.int 7))]
      (fun _ => ("ok", none)) "ok" rfl rfl rfl rfl rfl rfl).1,
    (bindings_evaluated_in_new_scope
      ⟨.literal (.scalar (.str "p")), [("a", .var "x")]⟩
      ⟨[("p", fun _ => ("ok", none))],
        [[("x", .scalar (.int 7)), ("include", .nil)]]⟩
      (.scalar (.str "p")) [("a", Value.scalar (.int 7))]
      (fun _ => ("ok", none)) "ok" rfl rfl rfl rfl rfl rfl).2.1⟩

/-- C2: materializing the bindings into the binding object gives, for each
identifier, the value of its last occurrence in the bindings sequence
(last write wins), while the object's keys preserve first-encounter order
and are unique. -/
theorem bindings_last_write_wins (vars : List (String × Expression))
    (scope : List Frame) (helper : List (String × Value))
    (h : buildHelper vars scope [] = .ok helper) :
    (∀ k, frameGet helper k =
      match vars.reverse.find? (fun p => p.1 = k) with
      | some p => p.2.try_evaluate scope
      | none => none) ∧
    helper.map Prod.fst = (vars.map Prod.fst).foldl addKey [] ∧
    (helper.map Prod.fst).Nodup := by
  refine ⟨fun k => ?_, buildHelper_keys vars scope [] helper h, ?_⟩
  · have := buildHelper_lookup vars scope [] helper h k
    simpa [frameGet] using this
  · rw [buildHelper_keys vars scope [] helper h]
    exact addKey_foldl_nodup _ _ List.nodup_nil

theorem bindings_last_write_wins_witness :
    buildHelper [("a", .literal (.scalar (.int 1))), ("b", .literal (.scalar (.int 2))),
        ("a", .literal (.scalar (.int 3)))] [[]] []
      = .ok [("a", Value.scalar (.int 3)), ("b", Value.scalar (.int 2))] ∧
    frameGet [("a", Value.scalar (.int 3)), ("b", Value.scalar (.int 2))] "a"
      = some (Value.scalar (.int 3)) :=
  ⟨rfl,
    ((bindings_last_write_wins
      [("a", .literal (.scalar (.int 1))), ("b", .literal (.scalar (.int 2))),
        ("a", .literal (.scalar (.int 3)))] [[]]
      [("a", Value.scalar (.int 3)), ("b", Value.scalar (.int 2))] rfl).1 "a").trans
      (by rfl)⟩

/-- C3 counterexample: with `foo` bound to an (empty) array, the failing
render's only context note carries the evaluated value's source text
`[]`, not the offending expression's source text `foo`, refuting the
claim that the error carries the expression's source text as context. -/
theorem nonscalar_name_context_counterexample :
    Include.render_to ⟨.var "foo", []⟩ ⟨[], [[("foo", Value.arr [])]]⟩
      = ("", some ⟨"Can only `include` strings", [.context "partial" "[]"]⟩) ∧
    Expression.text (.var "foo") = "foo" ∧ ("[]" : String) ≠ "foo" :=
  ⟨rfl, rfl, by decide⟩

/-- C3 as amended: a partial-name expression that evaluates to a
non-scalar value fails with the invalid-partial-name error carrying the
offending *value's* source text under context key `partial`, and no store
lookup is performed (the result is the same for every store); a
partial-name expression that fails to evaluate (an unresolvable
reference) instead propagates the evaluation error unchanged, likewise
without a lookup. -/
theorem nonscalar_name_fails_without_lookup (i : Include) (rt : Runtime) :
    (∀ v, i.tmplExpr.evaluate rt.stack = .ok v → v.is_scalar = false →
      i.render_to rt = ("", some ((Error.withMsg "Can only `include` strings").addContext
        "partial" v.source)) ∧
      ∀ store2, Include.render_to i ⟨store2, rt.stack⟩ = i.render_to rt) ∧
    (∀ e, i.tmplExpr.evaluate rt.stack = .error e →
      i.render_to rt = ("", some e) ∧
      ∀ store2, Include.render_to i ⟨store2, rt.stack⟩ = i.render_to rt) := by
  constructor
  · intro v hv hs
    have h1 := render_to_nonscalar i rt v hv hs
    refine ⟨h1, fun store2 => ?_⟩
    have h2 := render_to_nonscalar i ⟨store2, rt.stack⟩ v hv hs
    rw [h1, h2]
  · intro e hv
    have h1 := render_to_evalError i rt e hv
    refine ⟨h1, fun store2 => ?_⟩
    have h2 := render_to_evalError i ⟨store2, rt.stack⟩ e hv
    rw [h1, h2]

theorem nonscalar_name_fails_without_lookup_witness :
    Include.render_to ⟨.var "foo", []⟩
        ⟨[("x", fun _ => ("ok", none))], [[("foo", Value.arr [])]]⟩
      = ("", some ((Error.withMsg "Can only `include` strings").addContext
          "partial" (Value.arr []).source)) :=
  ((nonscalar_name_fails_without_lookup ⟨.var "foo", []⟩
      ⟨[("x", fun _ => ("ok", none))], [[("foo", Value.arr [])]]⟩).1
    (Value.arr []) rfl rfl).1

/-- C4: with an empty bindings list no binding object is created and no
`include` entry is set — the new scope is a plain empty frame, so every
lookup (`include.anything` in particular) behaves exactly as in the
caller's chain. -/
theorem empty_bindings_create_no_include_entry (i : Include) (rt : Runtime)
    (v : Value) (t : TemplateFn) (out : String)
    (hemp : i.vars.isEmpty = true)
    (hv : i.tmplExpr.evaluate rt.stack = .ok v)
    (hs : v.is_scalar = true)
    (ht : lookupStore rt.store v.to_kstr = .ok t)
    (hr : t ([] :: rt.stack) = (out, none)) :
    i.render_to rt = (out, none) ∧
    (∀ k, stackGet ([] :: rt.stack) k = stackGet rt.stack k) := by
  have hb : includeScope i.vars ([] :: rt.stack) = .ok ([] :: rt.stack) := by
    simp [includeScope, hemp]
  have h := render_to_found i rt v _ t hv hs hb ht
  rw [hr] at h
  exact ⟨h, fun k => stackGet_emptyFrame rt.stack k⟩

theorem empty_bindings_create_no_include_entry_witness :
    Include.render_to ⟨.literal (.scalar (.str "p")), []⟩
        ⟨[("p", fun _ => ("ok", none))], [[("include", Value.nil)]]⟩
      = ("ok", none) ∧
    stackGet ([] :: [[("include", Value.nil)]]) "include"
      = stackGet [[("include", Value.nil)]] "include" :=
  ⟨(empty_bindings_create_no_include_entry ⟨.literal (.scalar (.str "p")), []⟩
      ⟨[("p", fun _ => ("ok", none))], [[("include", Value.nil)]]⟩
      (.scalar (.str "p")) (fun _ => ("ok", none)) "ok" rfl rfl rfl rfl rfl).1,
    (empty_bindings_create_no_include_entry ⟨.literal (.scalar (.str "p")), []⟩
      ⟨[("p", fun _ => ("ok", none))], [[("include", Value.nil)]]⟩
      (.scalar (.str "p")) (fun _ => ("ok", none)) "ok" rfl rfl rfl rfl rfl).2
      "include"⟩

/-- C5 counterexample: a failing binding aborts with the constant-message
error `failed to evaluate value` carrying no annotations, and the error is
unchanged when the offending identifier is renamed (from `zzz` to `qqq`),
so it cannot name the offending identifier, refuting the claim. -/
theorem binding_failure_names_identifier_counterexample :
    Include.render_to ⟨.literal (.scalar (.str "p")), [("zzz", .var "missing")]⟩
        ⟨[], [[]]⟩
      = ("", some ⟨"failed to evaluate value", []⟩) ∧
    Include.render_to ⟨.literal (.scalar (.str "p")), [("qqq", .var "missing")]⟩
        ⟨[], [[]]⟩
      = Include.render_to ⟨.literal (.scalar (.str "p")), [("zzz", .var "missing")]⟩
          ⟨[], [[]]⟩ :=
  ⟨rfl, rfl⟩

/-- C5 as amended: when a binding's expression fails to evaluate, the
render aborts immediately with the binding-evaluation error — whose
message is the constant `failed to evaluate value`, not naming the
identifier — and neither the store lookup nor any rendering takes place
(the result is the same for every store). -/
theorem binding_failure_aborts_without_lookup (i : Include) (rt : Runtime)
    (v : Value) (e : Error)
    (hv : i.tmplExpr.evaluate rt.stack = .ok v)
    (hs : v.is_scalar = true)
    (hb : includeScope i.vars ([] :: rt.stack) = .error e) :
    i.render_to rt = ("", some (Error.withMsg "failed to evaluate value")) ∧
    ∀ store2, Include.render_to i ⟨store2, rt.stack⟩ = i.render_to rt := by
  have he := includeScope_error i.vars ([] :: rt.stack) e hb
  subst he
  have h1 := render_to_bindError i rt v _ hv hs hb
  refine ⟨h1, fun store2 => ?_⟩
  have h2 := render_to_bindError i ⟨store2, rt.stack⟩ v _ hv hs hb
  rw [h1, h2]

theorem binding_failure_aborts_without_lookup_witness :
    Include.render_to ⟨.literal (.scalar (.str "p")), [("zz", .var "gone")]⟩
        ⟨[("p", fun _ => ("ok", none))], [[]]⟩
      = ("", some (Error.withMsg "failed to evaluate value")) :=
  (binding_failure_aborts_without_lookup
    ⟨.literal (.scalar (.str "p")), [("zz", .var "gone")]⟩
    ⟨[("p", fun _ => ("ok", none))], [[]]⟩
    (.scalar (.str "p")) (Error.withMsg "failed to evaluate value")
    rfl rfl rfl).1

/-- C6 counterexample: a binding-evaluation failure crosses the
component's boundary with no annotation at all — its note list is empty,
so in particular it does not carry the include-tag source text — refuting
the claim that every failing render is annotated with the tag text. -/
theorem every_failure_annotated_counterexample :
    Include.render_to ⟨.literal (.scalar (.str "q")), [("k", .var "nope")]⟩ ⟨[], []⟩
      = ("", some ⟨"failed to evaluate value", []⟩) ∧
    (Error.mk "failed to evaluate value" []).notes = [] :=
  ⟨rfl, rfl⟩

/-- C6 as amended: a failing render's error is never replaced, but only
the store-miss path and the template-render path annotate it with the
literal include-tag source text; the remaining failures cross the
boundary either unannotated (a name-evaluation failure, a
binding-evaluation failure) or carrying only the offending value's source
text as context (a non-scalar name). -/
theorem failing_render_annotation_paths (i : Include) (rt : Runtime)
    (out : String) (e : Error)
    (h : i.render_to rt = (out, some e)) :
    Note.trace (tagText i) ∈ e.notes ∨
    i.tmplExpr.evaluate rt.stack = .error e ∨
    (∃ v, i.tmplExpr.evaluate rt.stack = .ok v ∧ v.is_scalar = false ∧
      e = (Error.withMsg "Can only `include` strings").addContext "partial" v.source) ∨
    e = Error.withMsg "failed to evaluate value" := by
  cases hv : i.tmplExpr.evaluate rt.stack with
  | error e2 =>
    rw [render_to_evalError i rt e2 hv] at h
    simp only [Prod.mk.injEq, Option.some.injEq] at h
    rcases h with ⟨-, rfl⟩
    exact Or.inr (Or.inl rfl)
  | ok v =>
    cases hs : v.is_scalar with
    | false =>
      rw [render_to_nonscalar i rt v hv hs] at h
      simp only [Prod.mk.injEq, Option.some.injEq] at h
      rcases h with ⟨-, rfl⟩
      exact Or.inr (Or.inr (Or.inl ⟨v, rfl, hs, rfl⟩))
    | true =>
      cases hb : includeScope i.vars ([] :: rt.stack) with
      | error e2 =>
        rw [render_to_bindError i rt v e2 hv hs hb] at h
        simp only [Prod.mk.injEq, Option.some.injEq] at h
        rcases h with ⟨-, rfl⟩
        exact Or.inr (Or.inr (Or.inr (includeScope_error _ _ _ hb)))
      | ok scope =>
        cases hm : lookupStore rt.store v.to_kstr with
        | error e2 =>
          rw [render_to_missing i rt v scope e2 hv hs hb hm] at h
          simp only [Prod.mk.injEq, Option.some.injEq] at h
          rcases h with ⟨-, rfl⟩
          left
          simp [Error.addTrace]
        | ok t =>
          have hf := render_to_found i rt v scope t hv hs hb hm
          cases hr : t scope with
          | mk o oe =>
            cases oe with
            | none =>
              rw [hr] at hf
              rw [hf] at h
              simp at h
            | some e2 =>
              rw [hr] at hf
              rw [hf] at h
              simp only [Prod.mk.injEq, Option.some.injEq] at h
              rcases h with ⟨-, rfl⟩
              left
              simp [Error.addTrace, Error.addContext]

theorem failing_render_annotation_paths_witness :
    Include.render_to ⟨.literal (.scalar (.str "p")), [("w", .var "gone")]⟩ ⟨[], []⟩
      = ("", some (Error.withMsg "failed to evaluate value")) ∧
    (Note.trace (tagText ⟨.literal (.scalar (.str "p")), [("w", .var "gone")]⟩)
        ∈ (Error.withMsg "failed to evaluate value").notes ∨
      Expression.evaluate (.literal (.scalar (.str "p"))) []
        = .error (Error.withMsg "failed to evaluate value") ∨
      (∃ v, Expression.evaluate (.literal (.scalar (.str "p"))) [] = .ok v ∧
        v.is_scalar = false ∧
        Error.withMsg "failed to evaluate value"
          = (Error.withMsg "Can only `include` strings").addContext "partial" v.source) ∨
      Error.withMsg "failed to evaluate value"
        = Error.withMsg "failed to evaluate value") :=
  ⟨rfl, failing_render_annotation_paths
    ⟨.literal (.scalar (.str "p")), [("w", .var "gone")]⟩ ⟨[], []⟩
    "" (Error.withMsg "failed to evaluate value") rfl⟩

/-- C7: a failure inside the resolved template's own rendering is wrapped,
not replaced: the message is kept, and exactly two pieces of trace
context are appended — the literal include-tag invocation text and the
evaluated partial-name string. -/
theorem template_failure_wrapped_with_trace (i : Include) (rt : Runtime)
    (v : Value) (scope : List Frame) (t : TemplateFn) (out : String) (e : Error)
    (hv : i.tmplExpr.evaluate rt.stack = .ok v)
    (hs : v.is_scalar = true)
    (hb : includeScope i.vars ([] :: rt.stack) = .ok scope)
    (ht : lookupStore rt.store v.to_kstr = .ok t)
    (hr : t scope = (out, some e)) :
    i.render_to rt
      = (out, some ((e.addTrace (tagText i)).addContext i.tmplExpr.text v.to_kstr)) ∧
    ((e.addTrace (tagText i)).addContext i.tmplExpr.text v.to_kstr).msg = e.msg ∧
    ((e.addTrace (tagText i)).addContext i.tmplExpr.text v.to_kstr).notes
      = e.notes ++ [.trace (tagText i), .context i.tmplExpr.text v.to_kstr] := by
  have h := render_to_found i rt v scope t hv hs hb ht
  rw [hr] at h
  exact ⟨h, rfl, by simp [Error.addTrace, Error.addContext]⟩

theorem template_failure_wrapped_with_trace_witness :
    Include.render_to ⟨.literal (.scalar (.str "p")), []⟩
        ⟨[("p", fun _ => ("half", some (Error.withMsg "inner failure")))], []⟩
      = ("half", some (((Error.withMsg "inner failure").addTrace
          (tagText ⟨.literal (.scalar (.str "p")), []⟩)).addContext
          (Expression.text (.literal (.scalar (.str "p")))) "p")) :=
  (template_failure_wrapped_with_trace ⟨.literal (.scalar (.str "p")), []⟩
    ⟨[("p", fun _ => ("half", some (Error.withMsg "inner failure")))], []⟩
    (.scalar (.str "p")) [[]] (fun _ => ("half", some (Error.withMsg "inner failure")))
    "half" (Error.withMsg "inner failure") rfl rfl rfl rfl rfl).1

/-- C8: when the store has no entry for the resolved key, the render
fails — it does not produce empty successful output — with the store's
own not-found error wrapped, not replaced, by a trace annotation carrying
the textual form of the include-tag invocation. -/
theorem missing_template_fails_wrapped (i : Include) (rt : Runtime)
    (v : Value) (scope : List Frame) (e : Error)
    (hv : i.tmplExpr.evaluate rt.stack = .ok v)
    (hs : v.is_scalar = true)
    (hb : includeScope i.vars ([] :: rt.stack) = .ok scope)
    (hm : lookupStore rt.store v.to_kstr = .error e) :
    i.render_to rt = ("", some (e.addTrace (tagText i))) ∧
    e = storeMissErr v.to_kstr ∧
    (e.addTrace (tagText i)).msg = e.msg ∧
    (e.addTrace (tagText i)).notes = e.notes ++ [.trace (tagText i)] :=
  ⟨render_to_missing i rt v scope e hv hs hb hm,
    lookupStore_error rt.store v.to_kstr e hm, rfl,
    by simp [Error.addTrace]⟩

theorem missing_template_fails_wrapped_witness :
    Include.render_to ⟨.literal (.scalar (.str "nope")), []⟩ ⟨[], []⟩
      = ("", some ((storeMissErr "nope").addTrace
          (tagText ⟨.literal (.scalar (.str "nope")), []⟩))) :=
  (missing_template_fails_wrapped ⟨.literal (.scalar (.str "nope")), []⟩ ⟨[], []⟩
    (.scalar (.str "nope")) [[]] (storeMissErr "nope") rfl rfl rfl rfl).1

/-- C9: parsing the tag arguments fails on an empty token stream, and
otherwise succeeds exactly when the first token is a value expression
(which becomes the partial-name expression) and the remaining tokens form
zero or more `identifier ":" expression` triples, strictly left to right;
the parsed bindings appear in encountered order. -/
theorem parse_characterization :
    (∀ (ts : List Token) (i : Include), IncludeTag.parse ts = .ok i ↔
      ∃ t0 rest, ts = t0 :: rest ∧ t0.expect_value = .ok i.tmplExpr ∧
        BindingsShape rest i.vars) ∧
    IncludeTag.parse [] = .error (Error.withMsg "Identifier or literal expected.") := by
  constructor
  · intro ts i
    constructor
    · intro h
      cases ts with
      | nil => simp [IncludeTag.parse] at h
      | cons t rest =>
        simp only [IncludeTag.parse] at h
        cases hval : t.expect_value with
        | error e => simp [hval] at h
        | ok pe =>
          rw [hval] at h
          cases hpv : parseVars rest with
          | error e => simp [hpv] at h
          | ok vs =>
            rw [hpv] at h
            cases h
            exact ⟨t, rest, rfl, hval, parseVars_ok_shape rest vs hpv⟩
    · rintro ⟨t0, rest, rfl, hval, hshape⟩
      have hpv := shape_parseVars_ok rest i.vars hshape
      simp [IncludeTag.parse, hval, hpv]
  · rfl

theorem parse_characterization_witness :
    IncludeTag.parse [.strLit "x", .ident "a", .punct ":", .intLit 1]
      = .ok ⟨.literal (.scalar (.str "x")), [("a", .literal (.scalar (.int 1)))]⟩ :=
  (parse_characterization.1 [.strLit "x", .ident "a", .punct ":", .intLit 1]
      ⟨.literal (.scalar (.str "x")), [("a", .literal (.scalar (.int 1)))]⟩).mpr
    ⟨.strLit "x", [.ident "a", .punct ":", .intLit 1], rfl, rfl,
      .cons (.ident "a") (.punct ":") (.intLit 1) [] "a"
        (.literal (.scalar (.int 1))) [] rfl rfl rfl .nil⟩

/-- C10: a render that fails before the resolved template's own rendering
begins — name evaluation failed, the name was non-scalar, a binding
failed, or the store had no entry — writes nothing to the output and
reports the failure. -/
theorem preRender_failure_writes_nothing (i : Include) (rt : Runtime)
    (h : preRenderFailure i rt) :
    (i.render_to rt).1 = "" ∧ (i.render_to rt).2.isSome = true := by
  rcases h with ⟨e, hv⟩ | ⟨v, hv, hs⟩ | ⟨v, e, hv, hs, hb⟩ | ⟨v, scope, e, hv, hs, hb, hm⟩
  · rw [render_to_evalError i rt e hv]
    exact ⟨rfl, rfl⟩
  · rw [render_to_nonscalar i rt v hv hs]
    exact ⟨rfl, rfl⟩
  · rw [render_to_bindError i rt v e hv hs hb]
    exact ⟨rfl, rfl⟩
  · rw [render_to_missing i rt v scope e hv hs hb hm]
    exact ⟨rfl, rfl⟩

theorem preRender_failure_writes_nothing_witness :
    (Include.render_to ⟨.literal (.scalar (.str "gone")), []⟩
        ⟨[("p", fun _ => ("text", none))], []⟩).1 = "" ∧
    (Include.render_to ⟨.literal (.scalar (.str "gone")), []⟩
        ⟨[("p", fun _ => ("text", none))], []⟩).2.isSome = true :=
  preRender_failure_writes_nothing ⟨.literal (.scalar (.str "gone")), []⟩
    ⟨[("p", fun _ => ("text", none))], []⟩
    (Or.inr (Or.inr (Or.inr ⟨.scalar (.str "gone"), [[]], storeMissErr "gone",
      rfl, rfl, rfl, rfl⟩)))

end LiquidInclude
